import Mathlib

/-!
Shallow embedding of `src/src/confirm.rs` (the transaction-confirmation engine of
rust-web3).  The futures-0.1 state machines of the source are driven to completion
against an explicit list of transport responses, consumed in order exactly as the
`TestTransport` of the in-source test supplies them; every RPC request the code
issues is recorded in order, so the trace-shaped properties of the spec can be
stated about the request list.
-/

namespace Confirm

/-- Transport-level errors (`Error` in the source) are opaque payloads; only their
identity matters for propagation. -/
abbrev Error := Nat

/-- `types::TransactionReceipt`, fields as constructed in the in-source test;
`H256`/`U256` values are modelled as `Nat`. -/
structure TransactionReceipt where
  hash : Nat
  index : Nat
  block_hash : Nat
  block_number : Nat
  cumulative_gas_used : Nat
  gas_used : Nat
  contract_address : Option Nat
  logs : List Nat
deriving DecidableEq

/-- `U256::low_u64`: truncation of a 256-bit value to its low 64 bits. -/
def low_u64 (x : Nat) : Nat := x % 2 ^ 64

/-- The RPC requests the code can issue, in the transport's vocabulary. -/
inductive Req where
  | sendTransaction
  | newBlockFilter
  | getFilterChanges
  | getTransactionReceipt
  | blockNumber
  | uninstallFilter
deriving DecidableEq

/-- Responses supplied by the transport and consumed in order, as the
`TestTransport` of the in-source test does.  `err` models a failed call. -/
inductive Resp where
  | hash (h : Nat)
  | filterId (f : Nat)
  | hashes (hs : List Nat)
  | receipt (r : Option TransactionReceipt)
  | number (n : Nat)
  | err (e : Error)
deriving DecidableEq

/-- The outcome of driving a future to completion against a response list. -/
inductive Outcome (α : Type) where
  | ok (a : α)
  | error (e : Error)
  /-- a Rust panic, such as the `expect` at confirm.rs line 220 -/
  | panicked
  /-- fuel or responses ran out with the future still in flight -/
  | pending
  /-- a response of the wrong shape for the pending request: invalid scenario -/
  | stuck
deriving DecidableEq

/-- A completed run: its outcome, the requests it issued in order, and the
responses it did not consume. -/
structure RunResult (α : Type) where
  out : Outcome α
  reqs : List Req
  rest : List Resp
deriving DecidableEq

/-- Prepend already-issued requests to a run result. -/
def RunResult.withReqs (rs : List Req) (r : RunResult α) : RunResult α :=
  ⟨r.out, rs ++ r.reqs, r.rest⟩

/-- Modelled from the spec: the Block-Notification Source (`api::FilterStream`,
whose code is not under `src/`) polled through `futures::stream::Skip`.  Per §4.2
and the collaborator table of §6, polling the filter yields a batch of new block
hashes, an empty batch meaning "nothing yet, poll again"; the stream hands the
buffered hashes on one at a time, and the `Skip` adapter discards the first
`skipRemaining` of them.  The request order asserted by
`test_send_transaction_with_confirmation` in `src/src/confirm.rs` pins this
item-wise behaviour down. -/
structure FilterStreamState where
  buffered : List Nat
  skipRemaining : Nat
deriving DecidableEq

/-- `WaitForConfirmationsState` from the source.  The pending futures inside
`CheckConfirmation`/`CompareConfirmations` are resolved by consuming responses,
so the variants carry only the data the comparison needs; as in the source,
`CompareConfirmations` stores the confirmation height already truncated by
`low_u64`. -/
inductive WaitForConfirmationsState where
  | WaitForNextBlock
  | CheckConfirmation
  | CompareConfirmations (confirmation_block_number : Nat)
deriving DecidableEq

/-- `WaitForConfirmations::poll` driven to completion.  `check` runs the pluggable
`ConfirmationCheck` against the response list (`check()` plus polling the returned
future).  `u64` addition is modelled as wrapping modulo `2 ^ 64`.  The `fuel`
argument bounds the number of loop steps taken; exhausting it yields `pending`,
the state of a future still in flight. -/
def waitForConfirmationsRun (check : List Resp → RunResult (Option Nat))
    (confirmations : Nat) :
    Nat → WaitForConfirmationsState → FilterStreamState → List Resp → RunResult Unit
  | 0, _, _, resps => ⟨.pending, [], resps⟩
  | fuel + 1, .WaitForNextBlock, fs, resps =>
    match fs.buffered with
    | _hash :: t =>
      match fs.skipRemaining with
      | s + 1 =>
        waitForConfirmationsRun check confirmations fuel .WaitForNextBlock ⟨t, s⟩ resps
      | 0 =>
        waitForConfirmationsRun check confirmations fuel .CheckConfirmation ⟨t, 0⟩ resps
    | [] =>
      match resps with
      | Resp.hashes hs :: rest =>
        RunResult.withReqs [Req.getFilterChanges]
          (waitForConfirmationsRun check confirmations fuel .WaitForNextBlock
            ⟨hs, fs.skipRemaining⟩ rest)
      | Resp.err e :: rest => ⟨.error e, [Req.getFilterChanges], rest⟩
      | [] => ⟨.pending, [Req.getFilterChanges], []⟩
      | _ :: rest => ⟨.stuck, [Req.getFilterChanges], rest⟩
  | fuel + 1, .CheckConfirmation, fs, resps =>
    let r := check resps
    match r.out with
    | .ok (some h256) =>
      RunResult.withReqs (r.reqs ++ [Req.blockNumber])
        (waitForConfirmationsRun check confirmations fuel
          (.CompareConfirmations (low_u64 h256)) fs r.rest)
    | .ok none =>
      RunResult.withReqs r.reqs
        (waitForConfirmationsRun check confirmations fuel .WaitForNextBlock fs r.rest)
    | .error e => ⟨.error e, r.reqs, r.rest⟩
    | .panicked => ⟨.panicked, r.reqs, r.rest⟩
    | .pending => ⟨.pending, r.reqs, r.rest⟩
    | .stuck => ⟨.stuck, r.reqs, r.rest⟩
  | fuel + 1, .CompareConfirmations h, fs, resps =>
    match resps with
    | Resp.number bn :: rest =>
      if low_u64 (h + confirmations) ≥ low_u64 bn then ⟨.ok (), [], rest⟩
      else waitForConfirmationsRun check confirmations fuel .WaitForNextBlock fs rest
    | Resp.err e :: rest => ⟨.error e, [], rest⟩
    | [] => ⟨.pending, [], []⟩
    | _ :: rest => ⟨.stuck, [], rest⟩

/-- `TransactionReceiptBlockNumberCheck::check` followed by
`TransactionReceiptBlockNumber::poll`: one `eth_getTransactionReceipt` call; an
absent receipt maps to `none`, a present one to `some` of its `block_number`. -/
def transactionReceiptBlockNumberCheck (resps : List Resp) : RunResult (Option Nat) :=
  match resps with
  | Resp.receipt r :: rest =>
    ⟨.ok (r.map (fun rc => rc.block_number)), [Req.getTransactionReceipt], rest⟩
  | Resp.err e :: rest => ⟨.error e, [Req.getTransactionReceipt], rest⟩
  | [] => ⟨.pending, [Req.getTransactionReceipt], []⟩
  | _ :: rest => ⟨.stuck, [Req.getTransactionReceipt], rest⟩

/-- `Confirmations::poll`: the `Create` state resolves the `CreateFilter` call
(`eth_newBlockFilter`, issued by `Confirmations::new`), then `Wait` delegates to
the engine, whose stream skips the first `confirmations` hashes
(`filter.stream(..).skip(confirmations)`). -/
def confirmationsRun (check : List Resp → RunResult (Option Nat))
    (confirmations fuel : Nat) (resps : List Resp) : RunResult Unit :=
  match resps with
  | Resp.filterId _ :: rest =>
    RunResult.withReqs [Req.newBlockFilter]
      (waitForConfirmationsRun check confirmations fuel .WaitForNextBlock
        ⟨[], confirmations⟩ rest)
  | Resp.err e :: rest => ⟨.error e, [Req.newBlockFilter], rest⟩
  | [] => ⟨.pending, [Req.newBlockFilter], []⟩
  | _ :: rest => ⟨.stuck, [Req.newBlockFilter], rest⟩

/-- `SendTransactionWithConfirmation::poll`: submit (`eth_sendTransaction`), run
the orchestrator with a `TransactionReceiptBlockNumberCheck` for the obtained
hash, then refetch the receipt; per confirm.rs line 220, the code panics
(`expect`) when that final receipt is absent. -/
def sendTransactionWithConfirmationRun (confirmations fuel : Nat)
    (resps : List Resp) : RunResult TransactionReceipt :=
  match resps with
  | Resp.hash _ :: rest =>
    let cr := confirmationsRun transactionReceiptBlockNumberCheck confirmations fuel rest
    match cr.out with
    | Outcome.ok _ =>
      match cr.rest with
      | Resp.receipt (some r) :: rest2 =>
        ⟨Outcome.ok r, Req.sendTransaction :: cr.reqs ++ [Req.getTransactionReceipt], rest2⟩
      | Resp.receipt none :: rest2 =>
        ⟨Outcome.panicked, Req.sendTransaction :: cr.reqs ++ [Req.getTransactionReceipt], rest2⟩
      | Resp.err e :: rest2 =>
        ⟨Outcome.error e, Req.sendTransaction :: cr.reqs ++ [Req.getTransactionReceipt], rest2⟩
      | [] => ⟨Outcome.pending, Req.sendTransaction :: cr.reqs ++ [Req.getTransactionReceipt], []⟩
      | _ :: rest2 =>
        ⟨Outcome.stuck, Req.sendTransaction :: cr.reqs ++ [Req.getTransactionReceipt], rest2⟩
    | Outcome.error e => ⟨Outcome.error e, Req.sendTransaction :: cr.reqs, cr.rest⟩
    | Outcome.panicked => ⟨Outcome.panicked, Req.sendTransaction :: cr.reqs, cr.rest⟩
    | Outcome.pending => ⟨Outcome.pending, Req.sendTransaction :: cr.reqs, cr.rest⟩
    | Outcome.stuck => ⟨Outcome.stuck, Req.sendTransaction :: cr.reqs, cr.rest⟩
  | Resp.err e :: rest => ⟨Outcome.error e, [Req.sendTransaction], rest⟩
  | [] => ⟨Outcome.pending, [Req.sendTransaction], []⟩
  | _ :: rest => ⟨Outcome.stuck, [Req.sendTransaction], rest⟩

/-- Whether the run brought the server-side filter handle into existence: the
submit resolved to a hash and the subsequent create-filter call resolved to a
handle. -/
def filterHandleCreated (resps : List Resp) : Bool :=
  match resps with
  | Resp.hash _ :: Resp.filterId _ :: _ => true
  | _ => false

/-- Modelled from the spec: the filter teardown (`eth_uninstallFilter`, issued by
the api-module filter code, which is not under `src/`).  Per §3, §5 and §9 the
release is attached to the lifetime of the filter handle: it fires when the
operation ends — success, propagated error, or abandonment of the in-flight
future — exactly when the handle exists; the in-source test asserts it as the
final request, after the last receipt fetch. -/
def sendTransactionWithConfirmationRunTd (confirmations fuel : Nat)
    (resps : List Resp) : RunResult TransactionReceipt :=
  let r := sendTransactionWithConfirmationRun confirmations fuel resps
  if filterHandleCreated resps then ⟨r.out, r.reqs ++ [Req.uninstallFilter], r.rest⟩
  else r

/-- Trace grammar of the confirmation loop with the receipt-based check: one or
more rounds, each a run of filter polls and receipt polls ending in the receipt
poll that found a height, followed by one block-number query. -/
inductive Rounds : List Req → Prop where
  | last (mids : List Req)
      (h : ∀ r ∈ mids, r = Req.getFilterChanges ∨ r = Req.getTransactionReceipt) :
      Rounds (mids ++ [Req.getTransactionReceipt, Req.blockNumber])
  | more (mids rest : List Req)
      (h : ∀ r ∈ mids, r = Req.getFilterChanges ∨ r = Req.getTransactionReceipt)
      (hr : Rounds rest) :
      Rounds (mids ++ Req.getTransactionReceipt :: Req.blockNumber :: rest)

@[simp]
theorem RunResult.withReqs_out (rs : List Req) (r : RunResult α) :
    (RunResult.withReqs rs r).out = r.out := rfl

@[simp]
theorem RunResult.withReqs_reqs (rs : List Req) (r : RunResult α) :
    (RunResult.withReqs rs r).reqs = rs ++ r.reqs := rfl

@[simp]
theorem RunResult.withReqs_rest (rs : List Req) (r : RunResult α) :
    (RunResult.withReqs rs r).rest = r.rest := rfl

/-- Replay of `test_send_transaction_with_confirmation` from `src/src/confirm.rs`:
the embedding issues exactly the twelve requests the test asserts, in the same
order, and returns the test's receipt.  This validates the embedding against the
source's own reference scenario. -/
theorem replay_reference_scenario :
    sendTransactionWithConfirmationRunTd 3 25
      [Resp.hash 0x111, Resp.filterId 0x123, Resp.hashes [0x456, 0x457],
       Resp.hashes [0x458], Resp.hashes [0x459], Resp.receipt none,
       Resp.hashes [0x460, 0x461], Resp.receipt none,
       Resp.receipt (some ⟨0, 0, 0, 2, 0, 0, none, []⟩), Resp.number 5,
       Resp.receipt (some ⟨0, 0, 0, 2, 0, 0, none, []⟩)] =
    ⟨Outcome.ok ⟨0, 0, 0, 2, 0, 0, none, []⟩,
     [Req.sendTransaction, Req.newBlockFilter, Req.getFilterChanges,
      Req.getFilterChanges, Req.getFilterChanges, Req.getTransactionReceipt,
      Req.getFilterChanges, Req.getTransactionReceipt, Req.getTransactionReceipt,
      Req.blockNumber, Req.getTransactionReceipt, Req.uninstallFilter], []⟩ := by
  decide

/-- C1: with the engine in `CompareConfirmations` holding confirmation height `h`
and confirmation count `c`, a height query resolving to `bn` succeeds exactly when
`h + c ≥ bn` (equality succeeds) and otherwise transitions back to
`WaitForNextBlock` to keep looping; in particular `bn = h + c + 1` loops. -/
theorem C1_compare_confirmations (check : List Resp → RunResult (Option Nat))
    (c h bn fuel : Nat) (fs : FilterStreamState) (rest : List Resp)
    (hsum : h + c + 1 < 2 ^ 64) (hbn : bn < 2 ^ 64) :
    (waitForConfirmationsRun check c (fuel + 1)
        (.CompareConfirmations h) fs (Resp.number bn :: rest) =
      if h + c ≥ bn then ⟨Outcome.ok (), [], rest⟩
      else waitForConfirmationsRun check c fuel .WaitForNextBlock fs rest) ∧
    waitForConfirmationsRun check c (fuel + 1)
        (.CompareConfirmations h) fs (Resp.number (h + c + 1) :: rest) =
      waitForConfirmationsRun check c fuel .WaitForNextBlock fs rest := by
  constructor
  · simp only [waitForConfirmationsRun, low_u64,
      Nat.mod_eq_of_lt (show h + c < 2 ^ 64 by omega), Nat.mod_eq_of_lt hbn]
  · simp only [waitForConfirmationsRun, low_u64,
      Nat.mod_eq_of_lt (show h + c < 2 ^ 64 by omega), Nat.mod_eq_of_lt hsum]
    rw [if_neg (by omega)]

/-- Witness for C1 at the spec's concrete scenario `h = 2`, `c = 3`:
`bn = 5` succeeds on equality, and the flagged boundary `bn = 6 = h + c + 1`
loops back to `WaitForNextBlock`. -/
theorem C1_compare_confirmations_witness :
    (waitForConfirmationsRun transactionReceiptBlockNumberCheck 3 1
        (.CompareConfirmations 2) ⟨[], 0⟩ (Resp.number 5 :: []) =
      if 2 + 3 ≥ 5 then ⟨Outcome.ok (), [], []⟩
      else waitForConfirmationsRun transactionReceiptBlockNumberCheck 3 0
        .WaitForNextBlock ⟨[], 0⟩ []) ∧
    waitForConfirmationsRun transactionReceiptBlockNumberCheck 3 1
        (.CompareConfirmations 2) ⟨[], 0⟩ (Resp.number (2 + 3 + 1) :: []) =
      waitForConfirmationsRun transactionReceiptBlockNumberCheck 3 0
        .WaitForNextBlock ⟨[], 0⟩ [] :=
  C1_compare_confirmations transactionReceiptBlockNumberCheck 3 2 5 0 ⟨[], 0⟩ []
    (by decide) (by decide)

/-- C6: the receipt-based check maps an absent receipt to `none` and a present
receipt to `some` of its `block_number`, in each case issuing exactly one
`eth_getTransactionReceipt` request. -/
theorem C6_receipt_check (rest : List Resp) (r : TransactionReceipt) :
    transactionReceiptBlockNumberCheck (Resp.receipt none :: rest) =
      ⟨Outcome.ok none, [Req.getTransactionReceipt], rest⟩ ∧
    transactionReceiptBlockNumberCheck (Resp.receipt (some r) :: rest) =
      ⟨Outcome.ok (some r.block_number), [Req.getTransactionReceipt], rest⟩ :=
  ⟨rfl, rfl⟩

/-- C10: both the height yielded by the check and the height-query result are
truncated to their low 64 bits before the comparison, and the addition wraps
modulo `2 ^ 64`; for heights above `2 ^ 64 - 1` the comparison is decided by the
values modulo `2 ^ 64`. -/
theorem C10_low_u64_truncation (check : List Resp → RunResult (Option Nat))
    (c fuel : Nat) (fs : FilterStreamState) (resps rest : List Resp)
    (h256 bn256 : Nat) (tr : List Req)
    (hcheck : check resps = ⟨Outcome.ok (some h256), tr, Resp.number bn256 :: rest⟩) :
    (waitForConfirmationsRun check c (fuel + 1 + 1) .CheckConfirmation fs resps).out =
      if (h256 % 2 ^ 64 + c) % 2 ^ 64 ≥ bn256 % 2 ^ 64 then Outcome.ok ()
      else (waitForConfirmationsRun check c fuel .WaitForNextBlock fs rest).out := by
  simp only [waitForConfirmationsRun, hcheck, low_u64, RunResult.withReqs_out]
  split <;> rfl

/-- Witness for C10: a confirmation height `2 ^ 64 + 5` and a queried height
`2 ^ 70 + 3`, both past `u64`, compare as `5 + 0 ≥ 3` after truncation, so the
engine succeeds even though the untruncated queried height is far larger. -/
theorem C10_low_u64_truncation_witness :
    (waitForConfirmationsRun transactionReceiptBlockNumberCheck 0 (0 + 1 + 1)
        .CheckConfirmation ⟨[], 0⟩
        [Resp.receipt (some ⟨0, 0, 0, 2 ^ 64 + 5, 0, 0, none, []⟩),
         Resp.number (2 ^ 70 + 3)]).out =
      if ((2 ^ 64 + 5) % 2 ^ 64 + 0) % 2 ^ 64 ≥ (2 ^ 70 + 3) % 2 ^ 64 then
        Outcome.ok ()
      else (waitForConfirmationsRun transactionReceiptBlockNumberCheck 0 0
        .WaitForNextBlock ⟨[], 0⟩ []).out :=
  C10_low_u64_truncation transactionReceiptBlockNumberCheck 0 0 ⟨[], 0⟩
    [Resp.receipt (some ⟨0, 0, 0, 2 ^ 64 + 5, 0, 0, none, []⟩),
     Resp.number (2 ^ 70 + 3)] [] (2 ^ 64 + 5) (2 ^ 70 + 3)
    [Req.getTransactionReceipt] rfl

/-- C9: the run is a deterministic function of the collaborator responses —
identical response sequences yield identical outcomes; no process-wide mutable
state exists in the embedding, mirroring the source's state being owned entirely
by the future. -/
theorem C9_deterministic (c fuel : Nat) (resps1 resps2 : List Resp)
    (h : resps1 = resps2) :
    sendTransactionWithConfirmationRunTd c fuel resps1 =
      sendTransactionWithConfirmationRunTd c fuel resps2 := by
  rw [h]

/-- Witness for C9: the reference scenario run twice yields the same result. -/
theorem C9_deterministic_witness :
    sendTransactionWithConfirmationRunTd 3 25
      [Resp.hash 0x111, Resp.filterId 0x123, Resp.hashes [0x456, 0x457],
       Resp.hashes [0x458], Resp.hashes [0x459], Resp.receipt none,
       Resp.hashes [0x460, 0x461], Resp.receipt none,
       Resp.receipt (some ⟨0, 0, 0, 2, 0, 0, none, []⟩), Resp.number 5,
       Resp.receipt (some ⟨0, 0, 0, 2, 0, 0, none, []⟩)] =
    sendTransactionWithConfirmationRunTd 3 25
      [Resp.hash 0x111, Resp.filterId 0x123, Resp.hashes [0x456, 0x457],
       Resp.hashes [0x458], Resp.hashes [0x459], Resp.receipt none,
       Resp.hashes [0x460, 0x461], Resp.receipt none,
       Resp.receipt (some ⟨0, 0, 0, 2, 0, 0, none, []⟩), Resp.number 5,
       Resp.receipt (some ⟨0, 0, 0, 2, 0, 0, none, []⟩)] :=
  C9_deterministic 3 25 _ _ rfl

/-- C2: at a scenario where the confirmation wait succeeds but the final receipt
fetch returns no receipt (a reorganization), the code panics — `expect` at
confirm.rs line 220 — instead of returning any error to the caller. -/
theorem C2_receipt_absent_panics :
    ((sendTransactionWithConfirmationRunTd 0 10
      [Resp.hash 1, Resp.filterId 2, Resp.hashes [3],
       Resp.receipt (some ⟨0, 0, 0, 2, 0, 0, none, []⟩), Resp.number 2,
       Resp.receipt none]).out = Outcome.panicked) ∧
    ∀ e : Error,
      (sendTransactionWithConfirmationRunTd 0 10
        [Resp.hash 1, Resp.filterId 2, Resp.hashes [3],
         Resp.receipt (some ⟨0, 0, 0, 2, 0, 0, none, []⟩), Resp.number 2,
         Resp.receipt none]).out ≠ Outcome.error e := by
  refine ⟨by decide, fun e h => ?_⟩
  have h1 : (sendTransactionWithConfirmationRunTd 0 10
      [Resp.hash 1, Resp.filterId 2, Resp.hashes [3],
       Resp.receipt (some ⟨0, 0, 0, 2, 0, 0, none, []⟩), Resp.number 2,
       Resp.receipt none]).out = Outcome.panicked := by decide
  rw [h1] at h
  exact Outcome.noConfusion h

/-- Counterexample to C3 as stated: a terminal run in which the first height
comparison fails (`bn = h + c + 1`), so the engine loops and a second
block-number query is issued — the claim's "one block-number query" is violated
while the run still succeeds. -/
theorem C3_two_block_number_queries :
    ((sendTransactionWithConfirmationRunTd 0 15
      [Resp.hash 1, Resp.filterId 2, Resp.hashes [3],
       Resp.receipt (some ⟨0, 0, 0, 2, 0, 0, none, []⟩), Resp.number 3,
       Resp.hashes [4], Resp.receipt (some ⟨0, 0, 0, 2, 0, 0, none, []⟩),
       Resp.number 2, Resp.receipt (some ⟨0, 0, 0, 2, 0, 0, none, []⟩)]).out =
      Outcome.ok ⟨0, 0, 0, 2, 0, 0, none, []⟩) ∧
    ((sendTransactionWithConfirmationRunTd 0 15
      [Resp.hash 1, Resp.filterId 2, Resp.hashes [3],
       Resp.receipt (some ⟨0, 0, 0, 2, 0, 0, none, []⟩), Resp.number 3,
       Resp.hashes [4], Resp.receipt (some ⟨0, 0, 0, 2, 0, 0, none, []⟩),
       Resp.number 2, Resp.receipt (some ⟨0, 0, 0, 2, 0, 0, none, []⟩)]).reqs.count
      Req.blockNumber = 2) := by
  constructor
  · decide
  · decide

/-- C5: if the check always resolves to `none`, the engine never reaches its
success terminal state from either loop state, and each `CheckConfirmation` step
transitions straight back to `WaitForNextBlock`, so `CompareConfirmations` is
never entered. -/
theorem C5_always_none_never_succeeds (check : List Resp → RunResult (Option Nat))
    (c fuel : Nat) (fs : FilterStreamState) (resps : List Resp)
    (hcheck : ∀ rs, (check rs).out = Outcome.ok none) :
    ((waitForConfirmationsRun check c fuel .WaitForNextBlock fs resps).out ≠
      Outcome.ok ()) ∧
    ((waitForConfirmationsRun check c fuel .CheckConfirmation fs resps).out ≠
      Outcome.ok ()) ∧
    (waitForConfirmationsRun check c (fuel + 1) .CheckConfirmation fs resps =
      RunResult.withReqs (check resps).reqs
        (waitForConfirmationsRun check c fuel .WaitForNextBlock fs
          (check resps).rest)) := by
  have step : ∀ (m : Nat) (fs2 : FilterStreamState) (rs : List Resp),
      waitForConfirmationsRun check c (m + 1) .CheckConfirmation fs2 rs =
        RunResult.withReqs (check rs).reqs
          (waitForConfirmationsRun check c m .WaitForNextBlock fs2
            (check rs).rest) := by
    intro m fs2 rs
    have h := hcheck rs
    simp [waitForConfirmationsRun, h]
  have main : ∀ (m : Nat) (fs2 : FilterStreamState) (rs : List Resp),
      ((waitForConfirmationsRun check c m .WaitForNextBlock fs2 rs).out ≠
        Outcome.ok ()) ∧
      ((waitForConfirmationsRun check c m .CheckConfirmation fs2 rs).out ≠
        Outcome.ok ()) := by
    intro m
    induction m with
    | zero =>
      intro fs2 rs
      exact ⟨by simp [waitForConfirmationsRun], by simp [waitForConfirmationsRun]⟩
    | succ n ih =>
      intro fs2 rs
      constructor
      · obtain ⟨buf, skip⟩ := fs2
        cases buf with
        | cons a t =>
          cases skip with
          | succ s =>
            simpa only [waitForConfirmationsRun] using (ih ⟨t, s⟩ rs).1
          | zero =>
            simpa only [waitForConfirmationsRun] using (ih ⟨t, 0⟩ rs).2
        | nil =>
          cases rs with
          | nil => simp [waitForConfirmationsRun]
          | cons a rest =>
            cases a with
            | hashes hs =>
              simpa only [waitForConfirmationsRun, RunResult.withReqs_out] using
                (ih ⟨hs, skip⟩ rest).1
            | hash h => simp [waitForConfirmationsRun]
            | filterId f => simp [waitForConfirmationsRun]
            | receipt r => simp [waitForConfirmationsRun]
            | number n2 => simp [waitForConfirmationsRun]
            | err e => simp [waitForConfirmationsRun]
      · rw [step n fs2 rs]
        simpa only [RunResult.withReqs_out] using (ih fs2 (check rs).rest).1
  exact ⟨(main fuel fs resps).1, (main fuel fs resps).2, step fuel fs resps⟩

/-- Witness for C5 at a concrete always-`none` check: after three steps from the
initial state the engine has not succeeded, and a check step goes back to
`WaitForNextBlock`. -/
theorem C5_always_none_never_succeeds_witness :
    ((waitForConfirmationsRun (fun rs => ⟨Outcome.ok none, [], rs⟩) 0 3
        .WaitForNextBlock ⟨[], 0⟩ []).out ≠ Outcome.ok ()) ∧
    ((waitForConfirmationsRun (fun rs => ⟨Outcome.ok none, [], rs⟩) 0 3
        .CheckConfirmation ⟨[], 0⟩ []).out ≠ Outcome.ok ()) ∧
    (waitForConfirmationsRun (fun rs => ⟨Outcome.ok none, [], rs⟩) 0 (3 + 1)
        .CheckConfirmation ⟨[], 0⟩ [] =
      RunResult.withReqs ((fun (rs : List Resp) =>
          (⟨Outcome.ok none, [], rs⟩ : RunResult (Option Nat))) []).reqs
        (waitForConfirmationsRun (fun rs => ⟨Outcome.ok none, [], rs⟩) 0 3
          .WaitForNextBlock ⟨[], 0⟩
          ((fun (rs : List Resp) =>
            (⟨Outcome.ok none, [], rs⟩ : RunResult (Option Nat))) []).rest)) :=
  C5_always_none_never_succeeds (fun rs => ⟨Outcome.ok none, [], rs⟩) 0 3
    ⟨[], 0⟩ [] (fun _ => rfl)

/-- C7: an error from the notification source, the check, or the height query
terminates the engine immediately with exactly that error — no retry, no partial
result — and the orchestrator and top-level operation propagate it unchanged. -/
theorem C7_fail_fast (check : List Resp → RunResult (Option Nat))
    (c hgt fuel k f h0 : Nat) (fs : FilterStreamState) (e : Error)
    (rest resps rs rs2 : List Resp) (tr : List Req) (rest' : List Resp)
    (hcheck : check resps = ⟨Outcome.error e, tr, rest'⟩)
    (hconf : (confirmationsRun transactionReceiptBlockNumberCheck c fuel rs2).out =
      Outcome.error e) :
    (waitForConfirmationsRun check c (fuel + 1) .WaitForNextBlock ⟨[], k⟩
        (Resp.err e :: rest) = ⟨Outcome.error e, [Req.getFilterChanges], rest⟩) ∧
    (waitForConfirmationsRun check c (fuel + 1) .CheckConfirmation fs resps =
        ⟨Outcome.error e, tr, rest'⟩) ∧
    (waitForConfirmationsRun check c (fuel + 1) (.CompareConfirmations hgt) fs
        (Resp.err e :: rest) = ⟨Outcome.error e, [], rest⟩) ∧
    (confirmationsRun check c fuel (Resp.filterId f :: rs) =
        RunResult.withReqs [Req.newBlockFilter]
          (waitForConfirmationsRun check c fuel .WaitForNextBlock ⟨[], c⟩ rs)) ∧
    ((sendTransactionWithConfirmationRunTd c fuel (Resp.hash h0 :: rs2)).out =
        Outcome.error e) := by
  refine ⟨rfl, ?_, rfl, rfl, ?_⟩
  · simp [waitForConfirmationsRun, hcheck]
  · simp only [sendTransactionWithConfirmationRunTd, sendTransactionWithConfirmationRun,
      hconf]
    split <;> rfl

/-- Witness for C7: error payload `7` at each suspension point propagates to the
engine, orchestrator and top-level operation unchanged. -/
theorem C7_fail_fast_witness :
    (waitForConfirmationsRun transactionReceiptBlockNumberCheck 0 (5 + 1)
        .WaitForNextBlock ⟨[], 0⟩ (Resp.err 7 :: []) =
      ⟨Outcome.error 7, [Req.getFilterChanges], []⟩) ∧
    (waitForConfirmationsRun transactionReceiptBlockNumberCheck 0 (5 + 1)
        .CheckConfirmation ⟨[], 0⟩ [Resp.err 7] =
      ⟨Outcome.error 7, [Req.getTransactionReceipt], []⟩) ∧
    (waitForConfirmationsRun transactionReceiptBlockNumberCheck 0 (5 + 1)
        (.CompareConfirmations 0) ⟨[], 0⟩ (Resp.err 7 :: []) =
      ⟨Outcome.error 7, [], []⟩) ∧
    (confirmationsRun transactionReceiptBlockNumberCheck 0 5 (Resp.filterId 9 :: []) =
      RunResult.withReqs [Req.newBlockFilter]
        (waitForConfirmationsRun transactionReceiptBlockNumberCheck 0 5
          .WaitForNextBlock ⟨[], 0⟩ [])) ∧
    ((sendTransactionWithConfirmationRunTd 0 5 (Resp.hash 4 :: [Resp.err 7])).out =
      Outcome.error 7) :=
  C7_fail_fast transactionReceiptBlockNumberCheck 0 0 5 0 9 4 ⟨[], 0⟩ 7
    [] [Resp.err 7] [] [Resp.err 7] [Req.getTransactionReceipt] [] rfl (by decide)

/-- The receipt-based check issues exactly one `eth_getTransactionReceipt`
request on every input. -/
theorem tc_reqs (rs : List Resp) :
    (transactionReceiptBlockNumberCheck rs).reqs = [Req.getTransactionReceipt] := by
  cases rs with
  | nil => rfl
  | cons a r => cases a <;> rfl

/-- The engine never issues a request `q` that is neither a filter poll nor a
height query nor issued by its check. -/
theorem engine_not_mem_req (check : List Resp → RunResult (Option Nat)) (c : Nat)
    (q : Req) (hq1 : q ≠ Req.getFilterChanges) (hq2 : q ≠ Req.blockNumber)
    (hqc : ∀ rs, q ∉ (check rs).reqs) :
    ∀ (fuel : Nat) (st : WaitForConfirmationsState) (fs : FilterStreamState)
      (resps : List Resp),
      q ∉ (waitForConfirmationsRun check c fuel st fs resps).reqs := by
  intro fuel
  induction fuel with
  | zero => intro st fs resps; simp [waitForConfirmationsRun]
  | succ n ih =>
    intro st fs resps
    cases st with
    | WaitForNextBlock =>
      obtain ⟨buf, skip⟩ := fs
      cases buf with
      | cons a t =>
        cases skip with
        | succ s =>
          simpa only [waitForConfirmationsRun] using ih .WaitForNextBlock ⟨t, s⟩ resps
        | zero =>
          simpa only [waitForConfirmationsRun] using ih .CheckConfirmation ⟨t, 0⟩ resps
      | nil =>
        cases resps with
        | nil => simp [waitForConfirmationsRun, hq1]
        | cons a rest =>
          cases a with
          | hashes hs =>
            simp only [waitForConfirmationsRun, RunResult.withReqs_reqs,
              List.mem_append, List.mem_singleton]
            push_neg
            exact ⟨hq1, ih .WaitForNextBlock ⟨hs, skip⟩ rest⟩
          | hash h => simp [waitForConfirmationsRun, hq1]
          | filterId f => simp [waitForConfirmationsRun, hq1]
          | receipt r => simp [waitForConfirmationsRun, hq1]
          | number n2 => simp [waitForConfirmationsRun, hq1]
          | err e => simp [waitForConfirmationsRun, hq1]
    | CheckConfirmation =>
      rcases hr : check resps with ⟨o, tr, rst⟩
      have hqr : q ∉ tr := by
        have h := hqc resps
        rw [hr] at h
        exact h
      cases o with
      | ok oh =>
        cases oh with
        | some hh =>
          simp only [waitForConfirmationsRun, hr, RunResult.withReqs_reqs,
            List.mem_append, List.mem_singleton]
          push_neg
          exact ⟨⟨hqr, hq2⟩, ih (.CompareConfirmations (low_u64 hh)) fs rst⟩
        | none =>
          simp only [waitForConfirmationsRun, hr, RunResult.withReqs_reqs,
            List.mem_append]
          push_neg
          exact ⟨hqr, ih .WaitForNextBlock fs rst⟩
      | error e => simpa only [waitForConfirmationsRun, hr] using hqr
      | panicked => simpa only [waitForConfirmationsRun, hr] using hqr
      | pending => simpa only [waitForConfirmationsRun, hr] using hqr
      | stuck => simpa only [waitForConfirmationsRun, hr] using hqr
    | CompareConfirmations hgt =>
      cases resps with
      | nil => simp [waitForConfirmationsRun]
      | cons a rest =>
        cases a with
        | number bn =>
          simp only [waitForConfirmationsRun]
          split
          · simp
          · exact ih .WaitForNextBlock fs rest
        | hash h => simp [waitForConfirmationsRun]
        | filterId f => simp [waitForConfirmationsRun]
        | hashes hs => simp [waitForConfirmationsRun]
        | receipt r => simp [waitForConfirmationsRun]
        | err e => simp [waitForConfirmationsRun]

/-- The orchestrator issues exactly one `eth_newBlockFilter` request per wait
operation. -/
theorem conf_create_count (check : List Resp → RunResult (Option Nat))
    (c fuel : Nat) (resps : List Resp)
    (hqc : ∀ rs, Req.newBlockFilter ∉ (check rs).reqs) :
    (confirmationsRun check c fuel resps).reqs.count Req.newBlockFilter = 1 := by
  cases resps with
  | nil => simp [confirmationsRun]
  | cons a rest =>
    cases a with
    | filterId f =>
      have h := engine_not_mem_req check c Req.newBlockFilter (by decide) (by decide)
        hqc fuel .WaitForNextBlock ⟨[], c⟩ rest
      simp only [confirmationsRun, RunResult.withReqs_reqs, List.count_append]
      rw [List.count_eq_zero.mpr h]
      decide
    | hash h => simp [confirmationsRun]
    | hashes hs => simp [confirmationsRun]
    | receipt r => simp [confirmationsRun]
    | number n => simp [confirmationsRun]
    | err e => simp [confirmationsRun]

/-- With `s + 1` hashes buffered and a skip counter of `s`, the stream discards
the first `s` hashes and hands the next one to the engine, which moves to its
first check. -/
theorem skip_discard (check : List Resp → RunResult (Option Nat)) (c : Nat) :
    ∀ (s fuel : Nat) (hs : List Nat) (resps : List Resp), s + 1 ≤ hs.length →
      waitForConfirmationsRun check c (fuel + s + 1) .WaitForNextBlock ⟨hs, s⟩ resps =
        waitForConfirmationsRun check c fuel .CheckConfirmation
          ⟨hs.drop (s + 1), 0⟩ resps := by
  intro s
  induction s with
  | zero =>
    intro fuel hs resps hlen
    cases hs with
    | nil => simp at hlen
    | cons a t => simp [waitForConfirmationsRun]
  | succ s ih =>
    intro fuel hs resps hlen
    cases hs with
    | nil => simp at hlen
    | cons a t =>
      have h1 : fuel + (s + 1) + 1 = fuel + s + 1 + 1 := by omega
      rw [h1]
      have h2 : waitForConfirmationsRun check c (fuel + s + 1 + 1) .WaitForNextBlock
          ⟨a :: t, s + 1⟩ resps =
        waitForConfirmationsRun check c (fuel + s + 1) .WaitForNextBlock
          ⟨t, s⟩ resps := rfl
      rw [h2, ih fuel t resps (by simpa using hlen), List.drop_succ_cons]

/-- C4: the orchestrator issues exactly one filter-creation request per wait
operation and hands the engine a stream initialized to skip the first
`ConfirmationCount` hashes; while the skip counter is positive each arriving
hash is discarded without a check, and once it reaches zero the next hash sends
the engine to its first confirmation check — so the first `c` notifications of
the fresh subscription are discarded before the first check. -/
theorem C4_single_subscription_and_skip (check : List Resp → RunResult (Option Nat))
    (c fuel f a s : Nat) (t hs : List Nat)
    (rest resps resps2 resps3 resps4 : List Resp)
    (hnc : ∀ rs, Req.newBlockFilter ∉ (check rs).reqs)
    (hlen : c + 1 ≤ hs.length) :
    (confirmationsRun check c fuel (Resp.filterId f :: rest) =
      RunResult.withReqs [Req.newBlockFilter]
        (waitForConfirmationsRun check c fuel .WaitForNextBlock ⟨[], c⟩ rest)) ∧
    ((confirmationsRun check c fuel resps).reqs.count Req.newBlockFilter = 1) ∧
    (waitForConfirmationsRun check c (fuel + 1) .WaitForNextBlock
        ⟨a :: t, s + 1⟩ resps2 =
      waitForConfirmationsRun check c fuel .WaitForNextBlock ⟨t, s⟩ resps2) ∧
    (waitForConfirmationsRun check c (fuel + 1) .WaitForNextBlock
        ⟨a :: t, 0⟩ resps3 =
      waitForConfirmationsRun check c fuel .CheckConfirmation ⟨t, 0⟩ resps3) ∧
    (waitForConfirmationsRun check c (fuel + c + 1) .WaitForNextBlock
        ⟨hs, c⟩ resps4 =
      waitForConfirmationsRun check c fuel .CheckConfirmation
        ⟨hs.drop (c + 1), 0⟩ resps4) :=
  ⟨rfl, conf_create_count check c fuel resps hnc, rfl, rfl,
    skip_discard check c c fuel hs resps4 hlen⟩

/-- Witness for C4 with the receipt-based check, `c = 3` and a four-hash batch:
exactly one creation request, and the first three hashes are discarded before the
first check. -/
theorem C4_single_subscription_and_skip_witness :
    (confirmationsRun transactionReceiptBlockNumberCheck 3 2 (Resp.filterId 1 :: []) =
      RunResult.withReqs [Req.newBlockFilter]
        (waitForConfirmationsRun transactionReceiptBlockNumberCheck 3 2
          .WaitForNextBlock ⟨[], 3⟩ [])) ∧
    ((confirmationsRun transactionReceiptBlockNumberCheck 3 2 []).reqs.count
      Req.newBlockFilter = 1) ∧
    (waitForConfirmationsRun transactionReceiptBlockNumberCheck 3 (2 + 1)
        .WaitForNextBlock ⟨10 :: [11], 0 + 1⟩ [] =
      waitForConfirmationsRun transactionReceiptBlockNumberCheck 3 2
        .WaitForNextBlock ⟨[11], 0⟩ []) ∧
    (waitForConfirmationsRun transactionReceiptBlockNumberCheck 3 (2 + 1)
        .WaitForNextBlock ⟨10 :: [11], 0⟩ [] =
      waitForConfirmationsRun transactionReceiptBlockNumberCheck 3 2
        .CheckConfirmation ⟨[11], 0⟩ []) ∧
    (waitForConfirmationsRun transactionReceiptBlockNumberCheck 3 (2 + 3 + 1)
        .WaitForNextBlock ⟨[5, 6, 7, 8], 3⟩ [] =
      waitForConfirmationsRun transactionReceiptBlockNumberCheck 3 2
        .CheckConfirmation ⟨[5, 6, 7, 8].drop (3 + 1), 0⟩ []) :=
  C4_single_subscription_and_skip transactionReceiptBlockNumberCheck 3 2 1 10 0
    [11] [5, 6, 7, 8] [] [] [] [] []
    (fun rs => by rw [tc_reqs rs]; decide) (by decide)

/-- The core top-level run (before the modelled teardown) never issues an
`eth_uninstallFilter` request itself. -/
theorem send_core_not_uninstall (c fuel : Nat) (resps : List Resp) :
    Req.uninstallFilter ∉ (sendTransactionWithConfirmationRun c fuel resps).reqs := by
  cases resps with
  | nil => simp [sendTransactionWithConfirmationRun]
  | cons a rest =>
    cases a with
    | hash h0 =>
      have hconf : Req.uninstallFilter ∉
          (confirmationsRun transactionReceiptBlockNumberCheck c fuel rest).reqs := by
        cases rest with
        | nil => simp [confirmationsRun]
        | cons b r2 =>
          cases b with
          | filterId f2 =>
            have h := engine_not_mem_req transactionReceiptBlockNumberCheck c
              Req.uninstallFilter (by decide) (by decide)
              (fun rs => by rw [tc_reqs rs]; decide)
              fuel .WaitForNextBlock ⟨[], c⟩ r2
            simp only [confirmationsRun, RunResult.withReqs_reqs,
              List.mem_append, List.mem_singleton]
            push_neg
            exact ⟨by decide, h⟩
          | hash h2 => simp [confirmationsRun]
          | hashes hs => simp [confirmationsRun]
          | receipt r => simp [confirmationsRun]
          | number n => simp [confirmationsRun]
          | err e => simp [confirmationsRun]
      rcases hc : confirmationsRun transactionReceiptBlockNumberCheck c fuel rest
        with ⟨o, tr, rst⟩
      rw [hc] at hconf
      cases o with
      | ok u =>
        cases rst with
        | nil =>
          simp only [sendTransactionWithConfirmationRun, hc]
          simp [hconf]
        | cons d rst2 =>
          cases d with
          | receipt ro =>
            cases ro with
            | some r => simp only [sendTransactionWithConfirmationRun, hc]; simp [hconf]
            | none => simp only [sendTransactionWithConfirmationRun, hc]; simp [hconf]
          | hash h2 => simp only [sendTransactionWithConfirmationRun, hc]; simp [hconf]
          | filterId f2 => simp only [sendTransactionWithConfirmationRun, hc]; simp [hconf]
          | hashes hs => simp only [sendTransactionWithConfirmationRun, hc]; simp [hconf]
          | number n => simp only [sendTransactionWithConfirmationRun, hc]; simp [hconf]
          | err e => simp only [sendTransactionWithConfirmationRun, hc]; simp [hconf]
      | error e => simp only [sendTransactionWithConfirmationRun, hc]; simp [hconf]
      | panicked => simp only [sendTransactionWithConfirmationRun, hc]; simp [hconf]
      | pending => simp only [sendTransactionWithConfirmationRun, hc]; simp [hconf]
      | stuck => simp only [sendTransactionWithConfirmationRun, hc]; simp [hconf]
    | filterId f => simp [sendTransactionWithConfirmationRun]
    | hashes hs => simp [sendTransactionWithConfirmationRun]
    | receipt r => simp [sendTransactionWithConfirmationRun]
    | number n => simp [sendTransactionWithConfirmationRun]
    | err e => simp [sendTransactionWithConfirmationRun]

/-- C8: whenever the filter handle came into existence, the operation's request
trace ends with exactly one `eth_uninstallFilter`, on every exit path — success,
propagated error, panic, or abandonment of the still-pending future; when the
handle never existed, no uninstall is issued. -/
theorem C8_teardown_on_every_exit (c fuel : Nat) (resps : List Resp) :
    (filterHandleCreated resps = true →
      (sendTransactionWithConfirmationRunTd c fuel resps).reqs.getLast? =
        some Req.uninstallFilter ∧
      (sendTransactionWithConfirmationRunTd c fuel resps).reqs.count
        Req.uninstallFilter = 1) ∧
    (filterHandleCreated resps = false →
      (sendTransactionWithConfirmationRunTd c fuel resps).reqs.count
        Req.uninstallFilter = 0) := by
  constructor
  · intro hcr
    simp only [sendTransactionWithConfirmationRunTd, hcr, if_true]
    constructor
    · exact List.getLast?_concat _
    · rw [List.count_append,
        List.count_eq_zero.mpr (send_core_not_uninstall c fuel resps)]
      rfl
  · intro hcr
    simp only [sendTransactionWithConfirmationRunTd, hcr, if_false]
    exact List.count_eq_zero.mpr (send_core_not_uninstall c fuel resps)

/-- Witness for C8 on an abandoned in-flight operation: the submit and the
filter creation resolved, the engine is still pending, and the teardown still
closes the trace with exactly one uninstall. -/
theorem C8_teardown_on_every_exit_witness :
    (sendTransactionWithConfirmationRunTd 0 3
      [Resp.hash 1, Resp.filterId 2]).reqs.getLast? = some Req.uninstallFilter ∧
    (sendTransactionWithConfirmationRunTd 0 3
      [Resp.hash 1, Resp.filterId 2]).reqs.count Req.uninstallFilter = 1 :=
  (C8_teardown_on_every_exit 0 3 [Resp.hash 1, Resp.filterId 2]).1 rfl

/-- Prepending a filter poll or receipt poll to a round trace keeps it a round
trace: it joins the first round's leading polls. -/
theorem Rounds.cons_mid {r : Req} {xs : List Req}
    (hm : r = Req.getFilterChanges ∨ r = Req.getTransactionReceipt)
    (hx : Rounds xs) : Rounds (r :: xs) := by
  cases hx with
  | last mids h =>
    have he : r :: (mids ++ [Req.getTransactionReceipt, Req.blockNumber]) =
        (r :: mids) ++ [Req.getTransactionReceipt, Req.blockNumber] := rfl
    rw [he]
    refine Rounds.last (r :: mids) ?_
    intro x hx2
    rcases List.mem_cons.mp hx2 with h1 | h2
    · subst h1; exact hm
    · exact h x h2
  | more mids rest h hr =>
    have he : r :: (mids ++ Req.getTransactionReceipt :: Req.blockNumber :: rest) =
        (r :: mids) ++ Req.getTransactionReceipt :: Req.blockNumber :: rest := rfl
    rw [he]
    refine Rounds.more (r :: mids) rest ?_ hr
    intro x hx2
    rcases List.mem_cons.mp hx2 with h1 | h2
    · subst h1; exact hm
    · exact h x h2

/-- The receipt-based check consumes at most its own response: its leftover
responses are a suffix of its input. -/
theorem tc_rest_suffix (rs : List Resp) :
    (transactionReceiptBlockNumberCheck rs).rest <:+ rs := by
  cases rs with
  | nil => exact List.suffix_rfl
  | cons a r => cases a <;> exact List.suffix_cons _ r

/-- The engine consumes responses in order: its leftover responses are a suffix
of its input. -/
theorem engine_rest_suffix (check : List Resp → RunResult (Option Nat)) (c : Nat)
    (hsfx : ∀ rs, (check rs).rest <:+ rs) :
    ∀ (fuel : Nat) (st : WaitForConfirmationsState) (fs : FilterStreamState)
      (resps : List Resp),
      (waitForConfirmationsRun check c fuel st fs resps).rest <:+ resps := by
  intro fuel
  induction fuel with
  | zero => intro st fs resps; exact List.suffix_rfl
  | succ n ih =>
    intro st fs resps
    cases st with
    | WaitForNextBlock =>
      obtain ⟨buf, skip⟩ := fs
      cases buf with
      | cons a t =>
        cases skip with
        | succ s =>
          simpa only [waitForConfirmationsRun] using ih .WaitForNextBlock ⟨t, s⟩ resps
        | zero =>
          simpa only [waitForConfirmationsRun] using ih .CheckConfirmation ⟨t, 0⟩ resps
      | nil =>
        cases resps with
        | nil => simp only [waitForConfirmationsRun]; exact List.suffix_rfl
        | cons a rest =>
          cases a with
          | hashes hs =>
            simp only [waitForConfirmationsRun, RunResult.withReqs_rest]
            exact (ih .WaitForNextBlock ⟨hs, skip⟩ rest).trans (List.suffix_cons _ rest)
          | hash h => simp only [waitForConfirmationsRun]; exact List.suffix_cons _ rest
          | filterId f => simp only [waitForConfirmationsRun]; exact List.suffix_cons _ rest
          | receipt r => simp only [waitForConfirmationsRun]; exact List.suffix_cons _ rest
          | number n2 => simp only [waitForConfirmationsRun]; exact List.suffix_cons _ rest
          | err e => simp only [waitForConfirmationsRun]; exact List.suffix_cons _ rest
    | CheckConfirmation =>
      rcases hr : check resps with ⟨o, tr, rst⟩
      have hs2 : rst <:+ resps := by
        have h := hsfx resps
        rw [hr] at h
        exact h
      cases o with
      | ok oh =>
        cases oh with
        | some hh =>
          simp only [waitForConfirmationsRun, hr, RunResult.withReqs_rest]
          exact (ih (.CompareConfirmations (low_u64 hh)) fs rst).trans hs2
        | none =>
          simp only [waitForConfirmationsRun, hr, RunResult.withReqs_rest]
          exact (ih .WaitForNextBlock fs rst).trans hs2
      | error e => simpa only [waitForConfirmationsRun, hr] using hs2
      | panicked => simpa only [waitForConfirmationsRun, hr] using hs2
      | pending => simpa only [waitForConfirmationsRun, hr] using hs2
      | stuck => simpa only [waitForConfirmationsRun, hr] using hs2
    | CompareConfirmations hgt =>
      cases resps with
      | nil => simp only [waitForConfirmationsRun]; exact List.suffix_rfl
      | cons a rest =>
        cases a with
        | number bn =>
          simp only [waitForConfirmationsRun]
          split
          · exact List.suffix_cons _ rest
          · exact (ih .WaitForNextBlock fs rest).trans (List.suffix_cons _ rest)
        | hash h => simp only [waitForConfirmationsRun]; exact List.suffix_cons _ rest
        | filterId f => simp only [waitForConfirmationsRun]; exact List.suffix_cons _ rest
        | hashes hs => simp only [waitForConfirmationsRun]; exact List.suffix_cons _ rest
        | receipt r => simp only [waitForConfirmationsRun]; exact List.suffix_cons _ rest
        | err e => simp only [waitForConfirmationsRun]; exact List.suffix_cons _ rest

/-- Every successful engine run with the receipt-based check issues a trace in
the `Rounds` grammar (from the compare state the trace may also be empty, the
comparison's request having been issued on entry). -/
theorem engine_ok_rounds (c : Nat) :
    ∀ (fuel : Nat) (fs : FilterStreamState) (resps : List Resp),
      (((waitForConfirmationsRun transactionReceiptBlockNumberCheck c fuel
            .WaitForNextBlock fs resps).out = Outcome.ok ()) →
        Rounds (waitForConfirmationsRun transactionReceiptBlockNumberCheck c fuel
          .WaitForNextBlock fs resps).reqs) ∧
      (((waitForConfirmationsRun transactionReceiptBlockNumberCheck c fuel
            .CheckConfirmation fs resps).out = Outcome.ok ()) →
        Rounds (waitForConfirmationsRun transactionReceiptBlockNumberCheck c fuel
          .CheckConfirmation fs resps).reqs) ∧
      (∀ hgt : Nat,
        ((waitForConfirmationsRun transactionReceiptBlockNumberCheck c fuel
            (.CompareConfirmations hgt) fs resps).out = Outcome.ok ()) →
        ((waitForConfirmationsRun transactionReceiptBlockNumberCheck c fuel
            (.CompareConfirmations hgt) fs resps).reqs = [] ∨
          Rounds (waitForConfirmationsRun transactionReceiptBlockNumberCheck c fuel
            (.CompareConfirmations hgt) fs resps).reqs)) := by
  intro fuel
  induction fuel with
  | zero =>
    intro fs resps
    refine ⟨fun h => absurd h (by simp [waitForConfirmationsRun]),
      fun h => absurd h (by simp [waitForConfirmationsRun]),
      fun hgt h => absurd h (by simp [waitForConfirmationsRun])⟩
  | succ n ih =>
    intro fs resps
    refine ⟨?_, ?_, ?_⟩
    · obtain ⟨buf, skip⟩ := fs
      cases buf with
      | cons a t =>
        cases skip with
        | succ s =>
          intro h
          simp only [waitForConfirmationsRun] at h ⊢
          exact (ih ⟨t, s⟩ resps).1 h
        | zero =>
          intro h
          simp only [waitForConfirmationsRun] at h ⊢
          exact (ih ⟨t, 0⟩ resps).2.1 h
      | nil =>
        cases resps with
        | nil => exact fun h => absurd h (by simp [waitForConfirmationsRun])
        | cons a rest =>
          cases a with
          | hashes hs =>
            intro h
            simp only [waitForConfirmationsRun, RunResult.withReqs_out,
              RunResult.withReqs_reqs, List.singleton_append] at h ⊢
            exact Rounds.cons_mid (Or.inl rfl) ((ih ⟨hs, skip⟩ rest).1 h)
          | hash h2 => exact fun h => absurd h (by simp [waitForConfirmationsRun])
          | filterId f => exact fun h => absurd h (by simp [waitForConfirmationsRun])
          | receipt r => exact fun h => absurd h (by simp [waitForConfirmationsRun])
          | number n2 => exact fun h => absurd h (by simp [waitForConfirmationsRun])
          | err e => exact fun h => absurd h (by simp [waitForConfirmationsRun])
    · cases resps with
      | nil =>
        exact fun h => absurd h
          (by simp [waitForConfirmationsRun, transactionReceiptBlockNumberCheck])
      | cons a rest =>
        cases a with
        | receipt ro =>
          cases ro with
          | none =>
            intro h
            simp only [waitForConfirmationsRun, transactionReceiptBlockNumberCheck,
              Option.map_none', RunResult.withReqs_out, RunResult.withReqs_reqs,
              List.singleton_append] at h ⊢
            exact Rounds.cons_mid (Or.inr rfl) ((ih fs rest).1 h)
          | some rc =>
            intro h
            simp only [waitForConfirmationsRun, transactionReceiptBlockNumberCheck,
              Option.map_some', RunResult.withReqs_out, RunResult.withReqs_reqs,
              List.singleton_append, List.cons_append, List.nil_append] at h ⊢
            rcases (ih fs rest).2.2 (low_u64 rc.block_number) h with h0 | hR
            · rw [h0]
              exact Rounds.last [] (by simp)
            · exact Rounds.more [] _ (by simp) hR
        | hash h2 =>
          exact fun h => absurd h
            (by simp [waitForConfirmationsRun, transactionReceiptBlockNumberCheck])
        | filterId f =>
          exact fun h => absurd h
            (by simp [waitForConfirmationsRun, transactionReceiptBlockNumberCheck])
        | hashes hs =>
          exact fun h => absurd h
            (by simp [waitForConfirmationsRun, transactionReceiptBlockNumberCheck])
        | number n2 =>
          exact fun h => absurd h
            (by simp [waitForConfirmationsRun, transactionReceiptBlockNumberCheck])
        | err e =>
          exact fun h => absurd h
            (by simp [waitForConfirmationsRun, transactionReceiptBlockNumberCheck])
    · intro hgt
      cases resps with
      | nil => exact fun h => absurd h (by simp [waitForConfirmationsRun])
      | cons a rest =>
        cases a with
        | number bn =>
          intro h
          simp only [waitForConfirmationsRun] at h ⊢
          by_cases hcond : low_u64 (hgt + c) ≥ low_u64 bn
          · rw [if_pos hcond]
            left
            rfl
          · rw [if_neg hcond] at h ⊢
            right
            exact (ih fs rest).1 h
        | hash h2 => exact fun h => absurd h (by simp [waitForConfirmationsRun])
        | filterId f => exact fun h => absurd h (by simp [waitForConfirmationsRun])
        | hashes hs => exact fun h => absurd h (by simp [waitForConfirmationsRun])
        | receipt r => exact fun h => absurd h (by simp [waitForConfirmationsRun])
        | err e => exact fun h => absurd h (by simp [waitForConfirmationsRun])

/-- C3 (amended): every run of `send_transaction_with_confirmation` that reaches
the success terminal state issues, in order, one submit, one filter-create, then
one or more rounds — each a sequence of filter polls and receipt polls whose
last receipt poll found a height, followed by one block-number query — then one
final receipt fetch and one filter teardown; the returned value equals the
receipt consumed by that final fetch. -/
theorem C3_trace_shape (c fuel : Nat) (resps : List Resp)
    (rcpt : TransactionReceipt)
    (hok : (sendTransactionWithConfirmationRunTd c fuel resps).out =
      Outcome.ok rcpt) :
    ∃ eng pre rest1,
      Rounds eng ∧
      (sendTransactionWithConfirmationRunTd c fuel resps).reqs =
        Req.sendTransaction :: Req.newBlockFilter ::
          (eng ++ [Req.getTransactionReceipt, Req.uninstallFilter]) ∧
      resps = pre ++ Resp.receipt (some rcpt) :: rest1 ∧
      (sendTransactionWithConfirmationRunTd c fuel resps).rest = rest1 := by
  cases resps with
  | nil =>
    exact absurd hok (by simp [sendTransactionWithConfirmationRunTd,
      sendTransactionWithConfirmationRun, filterHandleCreated])
  | cons a rest0 =>
    cases a with
    | hash h0 =>
      cases rest0 with
      | nil =>
        exact absurd hok (by simp [sendTransactionWithConfirmationRunTd,
          sendTransactionWithConfirmationRun, confirmationsRun, filterHandleCreated])
      | cons b rest1' =>
        cases b with
        | filterId fid =>
          rcases her : waitForConfirmationsRun transactionReceiptBlockNumberCheck c
            fuel .WaitForNextBlock ⟨[], c⟩ rest1' with ⟨eo, erq, ers⟩
          have hcr : confirmationsRun transactionReceiptBlockNumberCheck c fuel
              (Resp.filterId fid :: rest1') =
              ⟨eo, Req.newBlockFilter :: erq, ers⟩ := by
            simp [confirmationsRun, her, RunResult.withReqs]
          cases eo with
          | ok u =>
            cases u
            cases ers with
            | nil =>
              exact absurd hok (by simp [sendTransactionWithConfirmationRunTd,
                sendTransactionWithConfirmationRun, hcr, filterHandleCreated])
            | cons d rest2 =>
              cases d with
              | receipt ro =>
                cases ro with
                | some rc =>
                  have hcore : sendTransactionWithConfirmationRun c fuel
                      (Resp.hash h0 :: Resp.filterId fid :: rest1') =
                      ⟨Outcome.ok rc, Req.sendTransaction ::
                        (Req.newBlockFilter :: erq) ++ [Req.getTransactionReceipt],
                        rest2⟩ := by
                    simp [sendTransactionWithConfirmationRun, hcr]
                  have hTd : sendTransactionWithConfirmationRunTd c fuel
                      (Resp.hash h0 :: Resp.filterId fid :: rest1') =
                      ⟨Outcome.ok rc, (Req.sendTransaction ::
                        (Req.newBlockFilter :: erq) ++
                          [Req.getTransactionReceipt]) ++
                        [Req.uninstallFilter], rest2⟩ := by
                    simp [sendTransactionWithConfirmationRunTd, hcore,
                      filterHandleCreated]
                  rw [hTd] at hok
                  have hrc : rc = rcpt := by simpa using hok
                  subst hrc
                  have hR : Rounds erq := by
                    have h2 := (engine_ok_rounds c fuel ⟨[], c⟩ rest1').1
                    rw [her] at h2
                    exact h2 rfl
                  have hsfx : Resp.receipt (some rc) :: rest2 <:+ rest1' := by
                    have h3 := engine_rest_suffix transactionReceiptBlockNumberCheck
                      c tc_rest_suffix fuel .WaitForNextBlock ⟨[], c⟩ rest1'
                    rw [her] at h3
                    exact h3
                  obtain ⟨p, hp⟩ := hsfx
                  refine ⟨erq, Resp.hash h0 :: Resp.filterId fid :: p, rest2,
                    hR, ?_, ?_, ?_⟩
                  · rw [hTd]
                    simp
                  · rw [← hp]
                    rfl
                  · rw [hTd]
                | none =>
                  exact absurd hok (by simp [sendTransactionWithConfirmationRunTd,
                    sendTransactionWithConfirmationRun, hcr, filterHandleCreated])
              | hash h2 =>
                exact absurd hok (by simp [sendTransactionWithConfirmationRunTd,
                  sendTransactionWithConfirmationRun, hcr, filterHandleCreated])
              | filterId f2 =>
                exact absurd hok (by simp [sendTransactionWithConfirmationRunTd,
                  sendTransactionWithConfirmationRun, hcr, filterHandleCreated])
              | hashes hs =>
                exact absurd hok (by simp [sendTransactionWithConfirmationRunTd,
                  sendTransactionWithConfirmationRun, hcr, filterHandleCreated])
              | number n2 =>
                exact absurd hok (by simp [sendTransactionWithConfirmationRunTd,
                  sendTransactionWithConfirmationRun, hcr, filterHandleCreated])
              | err e =>
                exact absurd hok (by simp [sendTransactionWithConfirmationRunTd,
                  sendTransactionWithConfirmationRun, hcr, filterHandleCreated])
          | error e =>
            exact absurd hok (by simp [sendTransactionWithConfirmationRunTd,
              sendTransactionWithConfirmationRun, hcr, filterHandleCreated])
          | panicked =>
            exact absurd hok (by simp [sendTransactionWithConfirmationRunTd,
              sendTransactionWithConfirmationRun, hcr, filterHandleCreated])
          | pending =>
            exact absurd hok (by simp [sendTransactionWithConfirmationRunTd,
              sendTransactionWithConfirmationRun, hcr, filterHandleCreated])
          | stuck =>
            exact absurd hok (by simp [sendTransactionWithConfirmationRunTd,
              sendTransactionWithConfirmationRun, hcr, filterHandleCreated])
        | hash h2 =>
          exact absurd hok (by simp [sendTransactionWithConfirmationRunTd,
            sendTransactionWithConfirmationRun, confirmationsRun, filterHandleCreated])
        | hashes hs =>
          exact absurd hok (by simp [sendTransactionWithConfirmationRunTd,
            sendTransactionWithConfirmationRun, confirmationsRun, filterHandleCreated])
        | receipt r =>
          exact absurd hok (by simp [sendTransactionWithConfirmationRunTd,
            sendTransactionWithConfirmationRun, confirmationsRun, filterHandleCreated])
        | number n2 =>
          exact absurd hok (by simp [sendTransactionWithConfirmationRunTd,
            sendTransactionWithConfirmationRun, confirmationsRun, filterHandleCreated])
        | err e =>
          exact absurd hok (by simp [sendTransactionWithConfirmationRunTd,
            sendTransactionWithConfirmationRun, confirmationsRun, filterHandleCreated])
    | filterId f =>
      exact absurd hok (by simp [sendTransactionWithConfirmationRunTd,
        sendTransactionWithConfirmationRun, filterHandleCreated])
    | hashes hs =>
      exact absurd hok (by simp [sendTransactionWithConfirmationRunTd,
        sendTransactionWithConfirmationRun, filterHandleCreated])
    | receipt r =>
      exact absurd hok (by simp [sendTransactionWithConfirmationRunTd,
        sendTransactionWithConfirmationRun, filterHandleCreated])
    | number n2 =>
      exact absurd hok (by simp [sendTransactionWithConfirmationRunTd,
        sendTransactionWithConfirmationRun, filterHandleCreated])
    | err e =>
      exact absurd hok (by simp [sendTransactionWithConfirmationRunTd,
        sendTransactionWithConfirmationRun, filterHandleCreated])

/-- Witness for C3 (amended) at the reference scenario of the in-source test. -/
theorem C3_trace_shape_witness :
    ∃ eng pre rest1,
      Rounds eng ∧
      (sendTransactionWithConfirmationRunTd 3 25
        [Resp.hash 0x111, Resp.filterId 0x123, Resp.hashes [0x456, 0x457],
         Resp.hashes [0x458], Resp.hashes [0x459], Resp.receipt none,
         Resp.hashes [0x460, 0x461], Resp.receipt none,
         Resp.receipt (some ⟨0, 0, 0, 2, 0, 0, none, []⟩), Resp.number 5,
         Resp.receipt (some ⟨0, 0, 0, 2, 0, 0, none, []⟩)]).reqs =
        Req.sendTransaction :: Req.newBlockFilter ::
          (eng ++ [Req.getTransactionReceipt, Req.uninstallFilter]) ∧
      [Resp.hash 0x111, Resp.filterId 0x123, Resp.hashes [0x456, 0x457],
       Resp.hashes [0x458], Resp.hashes [0x459], Resp.receipt none,
       Resp.hashes [0x460, 0x461], Resp.receipt none,
       Resp.receipt (some ⟨0, 0, 0, 2, 0, 0, none, []⟩), Resp.number 5,
       Resp.receipt (some ⟨0, 0, 0, 2, 0, 0, none, []⟩)] =
        pre ++ Resp.receipt (some ⟨0, 0, 0, 2, 0, 0, none, []⟩) :: rest1 ∧
      (sendTransactionWithConfirmationRunTd 3 25
        [Resp.hash 0x111, Resp.filterId 0x123, Resp.hashes [0x456, 0x457],
         Resp.hashes [0x458], Resp.hashes [0x459], Resp.receipt none,
         Resp.hashes [0x460, 0x461], Resp.receipt none,
         Resp.receipt (some ⟨0, 0, 0, 2, 0, 0, none, []⟩), Resp.number 5,
         Resp.receipt (some ⟨0, 0, 0, 2, 0, 0, none, []⟩)]).rest = rest1 :=
  C3_trace_shape 3 25
    [Resp.hash 0x111, Resp.filterId 0x123, Resp.hashes [0x456, 0x457],
     Resp.hashes [0x458], Resp.hashes [0x459], Resp.receipt none,
     Resp.hashes [0x460, 0x461], Resp.receipt none,
     Resp.receipt (some ⟨0, 0, 0, 2, 0, 0, none, []⟩), Resp.number 5,
     Resp.receipt (some ⟨0, 0, 0, 2, 0, 0, none, []⟩)]
    ⟨0, 0, 0, 2, 0, 0, none, []⟩ (by decide)

end Confirm
